import Mathlib

/-!
Verification of the collocation identity / deduplication / normal-form core of
the TermExtractor repository (src/ITermExtractor/Morph.py) against its
natural-language specification.

The data model (PartOfSpeech, Case, TaggedWord, Collocation) lives in
ITermExtractor/Structures, which is not under src/; the field and member names
used below are exactly those referenced by Morph.py, and the enumerations are
the closed sets named by the spec (section 3).

The external morphological tagger (pymorphy2, reached through tag_word /
tag_collocation) and the normalized Damerau-Levenshtein distance
(pyxdameraulevenshtein) are external collaborators per spec sections 1 and 6;
they are modelled as explicit function parameters (tc, dist) of the
operations that call them.

Python exceptions are modelled by the Except monad with the MError type below;
a Python function that can raise returns Except MError A.  The non-terminating
recursion of binary_identity_check is modelled with an explicit fuel
parameter: a result of none means the recursion did not finish within the
given fuel, and divergence is "none for every fuel".
-/

namespace Morph

/-- Part-of-speech tags, the closed enumeration of spec section 3 (the members
used by Morph.py). -/
inductive PartOfSpeech where
  | noun
  | adjective
  | verb
  | adverb
  | none
  deriving DecidableEq, Repr

/-- Grammatical case tags, the closed enumeration of spec section 3. -/
inductive Case where
  | nominative
  | genitive
  | dative
  | accusative
  | instrumental
  | prepositional
  | none
  deriving DecidableEq, Repr

/-- Immutable tagged word, spec section 3: surface form, part of speech,
grammatical case, lemma. -/
structure TaggedWord where
  word : String
  pos : PartOfSpeech
  case : Case
  normalized : String
  deriving DecidableEq, Repr

/-- Candidate term record, spec section 3; field names are the ones Morph.py
reads (collocation, wordcount, freq, pnormal_form, llinked, id). -/
structure Collocation where
  collocation : String
  wordcount : Nat
  freq : Nat
  pnormal_form : String
  llinked : List Nat
  id : Nat
  deriving DecidableEq, Repr

/-- Python exceptions raised by Morph.py.  Messages are kept, abbreviated to
their constant prefix where the source interpolates runtime data into them. -/
inductive MError where
  | typeError (msg : String)
  | valueError (msg : String)
  | indexError
  deriving DecidableEq, Repr

/-- Alphabetic characters as Python's str.isalpha sees the ones occurring in
this code base: ASCII letters and Russian Cyrillic letters (including ё/Ё). -/
def isAlphabetic (c : Char) : Bool :=
  c.isAlpha || ('а' ≤ c && c ≤ 'я') || ('А' ≤ c && c ≤ 'Я') || c = 'ё' || c = 'Ё'

/-- Modelled from the spec: helpers.is_correct_word (module helpers is not
under src/).  Per spec section 4.1 and 4.3 a correct word token is
alphabetic-only, ignoring an internal hyphen; non-alphabetic input is the
value-error case. -/
def is_correct_word (w : String) : Bool :=
  w.data.all (fun c => isAlphabetic c || c = '-')

/-- Lower-casing of one character as Python str.lower acts on the alphabets
above: ASCII and Cyrillic upper-case letters are mapped to lower case. -/
def cyrLowerChar (c : Char) : Char :=
  if c = 'Ё' then 'ё'
  else if 'А' ≤ c && c ≤ 'Я' then Char.ofNat (c.toNat + 32)
  else if 'A' ≤ c && c ≤ 'Z' then Char.ofNat (c.toNat + 32)
  else c

/-- Python str.lower over the alphabets used here, character by character. -/
def sLower (s : String) : String :=
  String.mk (s.data.map cyrLowerChar)

/-- Replacement of the character ё by е in every position, the effect of
Python s.replace('ё', 'е'). -/
def yoRepl (s : String) : String :=
  String.mk (s.data.map (fun c => if c = 'ё' then 'е' else c))

/-- Auxiliary loop for whitespace splitting (Python str.split with no
arguments): splits on runs of whitespace and drops empty pieces. -/
def wsSplitAux : List Char → List Char → List String
  | [], [] => []
  | [], cur => [String.mk cur.reverse]
  | c :: rest, cur =>
    if c.isWhitespace then
      if cur = [] then wsSplitAux rest []
      else String.mk cur.reverse :: wsSplitAux rest []
    else wsSplitAux rest (c :: cur)

/-- Python str.split() — split on whitespace runs, no empty tokens. -/
def splitWS (s : String) : List String :=
  wsSplitAux s.data []

/-- Auxiliary loop for literal single-space splitting (Python
str.split(' ')): empty pieces are kept. -/
def spSplitAux : List Char → List Char → List String
  | [], cur => [String.mk cur.reverse]
  | c :: rest, cur =>
    if c = ' ' then String.mk cur.reverse :: spSplitAux rest []
    else spSplitAux rest (c :: cur)

/-- Python str.split(' ') — split at each literal space character. -/
def splitSp (s : String) : List String :=
  spSplitAux s.data []

/-- Python ' '.join(words). -/
def joinWords : List String → String
  | [] => ""
  | [w] => w
  | w :: rest => w ++ " " ++ joinWords rest

/-- Python one-character membership c in s. -/
def hasChar (s : String) (c : Char) : Bool :=
  s.data.contains c

/-- Python substring containment needle in hay. -/
def substrOf (needle hay : String) : Bool :=
  decide (needle.data <:+: hay.data)

/-- Sequencing of a fallible computation over a list, in order, stopping at
the first error: the effect of a Python list comprehension whose body can
raise. -/
def exceptMap {α β : Type} (f : α → Except MError β) : List α → Except MError (List β)
  | [] => .ok []
  | a :: as =>
    match f a with
    | .error e => .error e
    | .ok b =>
      match exceptMap f as with
      | .error e => .error e
      | .ok bs => .ok (b :: bs)

/-- Head-word selector, Morph.py get_main_word (lines 114-159).  The empty
list stands for the "not a list / empty / wrongly-typed elements" guard of
the source, which returns an empty string. -/
def get_main_word : List TaggedWord → Except MError String
  | [] => .ok ""
  | w0 :: rest =>
    let collocation := w0 :: rest
    let pos := collocation.map (fun w => w.pos)
    if PartOfSpeech.verb ∈ pos ∧ PartOfSpeech.adverb ∈ pos then
      .error (.valueError "Словосочетания с глаголами и наречиями не поддерживаются")
    else if collocation.length = 1 ∧ PartOfSpeech.noun ∈ pos then
      .ok w0.word
    else if pos.count PartOfSpeech.noun = 1 then
      -- for w in collocation: if w.pos == noun: result = w.word   (no break)
      .ok (collocation.foldl (fun r w => if w.pos = PartOfSpeech.noun then w.word else r) "")
    else
      let r1 :=
        match collocation.find? (fun w => decide (w.case = Case.nominative ∨ w.case = Case.accusative)) with
        | some w => w.word
        | Option.none => ""
      if r1 = "" then
        match collocation.find? (fun w => decide (w.pos = PartOfSpeech.noun)) with
        | some w => .ok w.word
        | Option.none => .ok ""
      else .ok r1

/-- Word identity comparator on raw strings, Morph.py is_identical_word
(lines 45-111), string branch.  tc is the external tag_collocation
collaborator; taking the first element of its output is the source's
indexing [0], which raises IndexError on an empty tagging result. -/
def is_identical_word (tc : String → List TaggedWord) (word1 word2 : String) : Except MError Bool :=
  if word1 = "" ∨ word2 = "" then .ok false
  else if hasChar word1 ' ' = true ∨ hasChar word2 ' ' = true then
    .error (.valueError "Были переданы словосочетания")
  else if ¬ (is_correct_word word1 = true ∧ is_correct_word word2 = true) then
    .error (.valueError "Недопустимое значение аргументов. Необходимы символьные строки")
  else
    let w1 := sLower word1
    let w2 := sLower word2
    if w1 = w2 then .ok true
    else
      match (tc w1).head?, (tc w2).head? with
      | some t1, some t2 => .ok (decide (t1.normalized = t2.normalized))
      | _, _ => .error .indexError

/-- Positional token-by-token comparison loop of is_identical_collocation:
for i in range(len(tagged1)) compare tagged1[i].word and tagged2[i].word,
stopping at the first mismatch; indexing past the end of the second list is
an IndexError. -/
def pairwise_identical (tc : String → List TaggedWord) : List TaggedWord → List TaggedWord → Except MError Bool
  | [], _ => .ok true
  | _ :: _, [] => .error .indexError
  | a :: as, b :: bs =>
    match is_identical_word tc a.word b.word with
    | .error e => .error e
    | .ok false => .ok false
    | .ok true => pairwise_identical tc as bs

/-- Validating collocation identity comparator on raw strings, Morph.py
is_identical_collocation (lines 168-230). -/
def is_identical_collocation (tc : String → List TaggedWord) (collocation1 collocation2 : String) : Except MError Bool :=
  let words_coll1 := splitWS collocation1
  let words_coll2 := splitWS collocation2
  if words_coll1.length ≤ 1 ∨ words_coll2.length ≤ 1 then
    .error (.valueError "Необходимы словосочетания")
  else if (words_coll1 ++ words_coll2).all is_correct_word = false then
    .error (.valueError "Слова в словосочетаниях должны состоять из букв")
  else if collocation1 = collocation2 then .ok true
  else if words_coll1.length ≠ words_coll2.length then .ok false
  else
    let collocation1_tagged := tc collocation1
    let collocation2_tagged := tc collocation2
    match get_main_word collocation1_tagged with
    | .error e => .error e
    | .ok main_word_1 =>
      match get_main_word collocation2_tagged with
      | .error e => .error e
      | .ok main_word_2 =>
        match is_identical_word tc main_word_1 main_word_2 with
        | .error e => .error e
        | .ok false => .ok false
        | .ok true => pairwise_identical tc collocation1_tagged collocation2_tagged

/-- Fast collocation identity comparator on pre-tagged input, Morph.py
is_identical_collocation_q (lines 233-271).  A value error from the
head-word comparison is swallowed (comparison_result stays False); other
errors propagate. -/
def is_identical_collocation_q (tc : String → List TaggedWord) (collocation1 collocation2 : List TaggedWord) : Except MError Bool :=
  if collocation1.length < 1 ∨ collocation2.length < 1 then
    .error (.valueError "Необходимы словосочетания")
  else if collocation1 = collocation2 then .ok true
  else if collocation1.length ≠ collocation2.length then .ok false
  else
    match get_main_word collocation1 with
    | .error e => .error e
    | .ok main_word_1 =>
      match get_main_word collocation2 with
      | .error e => .error e
      | .ok main_word_2 =>
        let comparison_result : Except MError Bool :=
          match is_identical_word tc main_word_1 main_word_2 with
          | .ok b => .ok b
          | .error (.valueError _) => .ok false   -- except ValueError: pass
          | .error e => .error e
        match comparison_result with
        | .error e => .error e
        | .ok false => .ok false
        | .ok true =>
          .ok ((collocation1.zip collocation2).all (fun p => p.1.normalized == p.2.normalized))

/-- Recursive divide-and-conquer identity check, Morph.py
binary_identity_check (lines 274-296), with an explicit fuel argument: the
source recurses on both halves of the list with no guard for the empty
list, so the empty list makes it recurse forever; none means the fuel ran
out before the recursion finished. -/
def binary_identity_check (tc : String → List TaggedWord) (collocation : List TaggedWord) :
    Nat → List (Nat × List TaggedWord) → Option (Except MError (List (Nat × Bool)))
  | 0, _ => Option.none
  | _ + 1, [tmp] =>
    some (match is_identical_collocation_q tc collocation tmp.2 with
          | .error e => .error e
          | .ok b => .ok [(tmp.1, b)])
  | fuel + 1, collocation_list =>
    let middle_index := collocation_list.length / 2
    match binary_identity_check tc collocation fuel (collocation_list.take middle_index) with
    | Option.none => Option.none
    | some (.error e) => some (.error e)
    | some (.ok first_result) =>
      match binary_identity_check tc collocation fuel (collocation_list.drop middle_index) with
      | Option.none => Option.none
      | some (.error e) => some (.error e)
      | some (.ok second_result) => some (.ok (first_result ++ second_result))

/-- Direct linear scan over the indexed candidate list, applying the fast
comparator to each element in input order: the reference behaviour the spec
names for binary_identity_check (and the commented-out flat comprehension in
the source). -/
def linear_identity_scan (tc : String → List TaggedWord) (collocation : List TaggedWord)
    (collocation_list : List (Nat × List TaggedWord)) : Except MError (List (Nat × Bool)) :=
  exceptMap (fun p => match is_identical_collocation_q tc collocation p.2 with
                      | .error e => .error e
                      | .ok b => .ok (p.1, b)) collocation_list

/-- Case-aware list membership on raw strings, Morph.py
in_collocation_list_var (lines 301-348).  The source sorts the list in
place before the pairwise checks; the sorted list is what indexing reads. -/
def in_collocation_list_var (tc : String → List TaggedWord) (collocation : String)
    (collocation_list : List String) : Except MError (Bool × Option String) :=
  let words_coll := splitWS collocation
  if collocation_list.length = 0 then .ok (false, Option.none)
  else
    let val_check := words_coll.all is_correct_word
    let val_check_coll := collocation_list.all (fun coll => (splitWS coll).all is_correct_word)
    if val_check = false ∨ val_check_coll = false then
      .error (.valueError "Слова в словосочетаниях должны состоять из букв")
    else
      let flag := collocation_list.contains collocation
      let sorted_list := collocation_list.mergeSort (fun a b => decide (a ≤ b))
      if flag = true then .ok (true, Option.none)
      else
        match exceptMap (fun coll => is_identical_collocation tc collocation coll) sorted_list with
        | .error e => .error e
        | .ok identity_check =>
          match identity_check.findIdx? (fun b => b) with
          | Option.none => .ok (false, Option.none)
          | some found_index => .ok (true, sorted_list[found_index]?)

/-- Contiguous sub-phrase enumeration, Morph.py make_substrs (lines
580-604).  The source returns the empty string for empty input; as a list
of substrings that is the empty result. -/
def make_substrs (collocation : String) : List String :=
  if collocation = "" then []
  else
    let words := splitWS collocation
    -- for wcount in range(len(words) - 1, 1, -1): for j in range(0, len(words) - wcount + 1)
    ((List.range' 2 (words.length - 2)).reverse).flatMap
      (fun wcount => (List.range (words.length - wcount + 1)).map
        (fun j => joinWords ((words.drop j).take wcount)))

/-- Substring enumeration as the claim words it: every contiguous sub-phrase
of word length 2 through n-1, longest length first, by starting position
within one length; nothing for single-word or empty input. -/
def substrs_per_spec (phrase : String) : List String :=
  let ws := splitWS phrase
  let n := ws.length
  (List.range (n - 2)).flatMap
    (fun k =>
      let w := n - 1 - k
      (List.range (n - w + 1)).map (fun j => joinWords ((ws.drop j).take w)))

/-- Lightweight dictionary tagging, Morph.py assign_tags (lines 639-660),
string branch: keep the dictionary entries whose surface word occurs among
the phrase's words, in dictionary order. -/
def assign_tags (phrase : String) (dictionary : List TaggedWord) : List TaggedWord :=
  let raw_words := splitSp phrase
  dictionary.filter (fun word => raw_words.contains word.word)

/-- Morph.py assign_tags, Collocation branch: the words come from the
record's surface text. -/
def assign_tags_c (phrase : Collocation) (dictionary : List TaggedWord) : List TaggedWord :=
  let raw_words := splitSp phrase.collocation
  dictionary.filter (fun word => raw_words.contains word.word)

/-- Per-candidate body of the get_longer_terms loop: substrings of the
longer candidate restricted to the short candidate's word count, tagged via
the dictionary, each compared with the fast comparator; the comprehension
stops at the first error (the source wraps the whole comprehension in
try/except). -/
def gram_check (tc : String → List TaggedWord) (tagged_line : List TaggedWord) (wordcount : Nat)
    (dictionary : List TaggedWord) (gram : Collocation) : Except MError (List Bool) :=
  let possible_identic_lines := (make_substrs gram.collocation).filter
    (fun substr => (splitSp substr).length == wordcount)
  let tagged_possible_identic_lines := possible_identic_lines.map (fun l => assign_tags l dictionary)
  exceptMap (fun l => is_identical_collocation_q tc tagged_line l) tagged_possible_identic_lines

/-- Containment extractor, Morph.py get_longer_terms (lines 607-636): a
longer candidate is kept when its substring checks all succeed and at least
one is identical; an error inside the comprehension skips that candidate
(continue). -/
def get_longer_terms (tc : String → List TaggedWord) (line : Collocation)
    (longer_grams : List Collocation) (dictionary : List TaggedWord) : List Collocation :=
  let tagged_line := assign_tags_c line dictionary
  longer_grams.filter (fun gram =>
    match gram_check tc tagged_line line.wordcount dictionary gram with
    | .error _ => false
    | .ok id_check => id_check.contains true)

/-- Distance threshold of the normal-form resolver, Morph.py line 16. -/
def DIST_THRESHOLD : ℚ := 15 / 100

/-- Normal-form resolution after the orthographic normalization step,
Morph.py get_collocation_normal_form lines 534-544: distances from the
pseudo-normal form to every candidate text, filter by threshold over the
minimum and by head-word containment, stable-sort by distance when more
than one survives, first index or the sentinel -1.  dist is the external
normalized Damerau-Levenshtein collaborator, its values as exact
rationals. -/
def gcnf_core (dist : String → String → ℚ) (pnormal_form : String)
    (collocations : List Collocation) (main_word : String) : Except MError Int :=
  let forms := collocations.map (fun c => c.collocation)
  let distances := forms.map (fun f => dist pnormal_form f)
  match distances.min? with
  | Option.none => .error (.valueError "min() arg is an empty sequence")
  | some m =>
    let indices := (collocations.zip distances).enum.filterMap
      (fun p => if p.2.2 - m ≤ DIST_THRESHOLD ∧ substrOf main_word p.2.1.collocation = true
                then some (p.1, p.2.2) else Option.none)
    let sorted_indices :=
      if 1 < indices.length then indices.mergeSort (fun a b => decide (a.2 ≤ b.2)) else indices
    match sorted_indices.head? with
    | Option.none => .ok (-1)
    | some p => .ok (Int.ofNat p.1)

/-- Rewriting of a candidate's surface text by the ё-to-е normalization, the
in-place mutation c.collocation = c.collocation.replace('ё', 'е'). -/
def collRepl (c : Collocation) : Collocation :=
  { c with collocation := yoRepl c.collocation }

/-- Normal-form resolver, Morph.py get_collocation_normal_form (lines
518-544): when the lower-cased pseudo-normal form contains ё, the head
word, the pseudo-normal form and every candidate text are rewritten with
ё replaced by е before the distance computation. -/
def get_collocation_normal_form (dist : String → String → ℚ) (pnormal_form : String)
    (collocations : List Collocation) (main_word : String) : Except MError Int :=
  if hasChar (sLower pnormal_form) 'ё' = true then
    gcnf_core dist (yoRepl pnormal_form) (collocations.map collRepl) (yoRepl main_word)
  else
    gcnf_core dist pnormal_form collocations main_word

/-! Concrete instances used by the closed theorems below: small taggers,
dictionaries and candidate records. -/

/-- Tagger instance that tags any token as a nominative noun whose lemma is
the token itself. -/
def tcNom : String → List TaggedWord := fun s => [⟨s, .noun, .nominative, s⟩]

/-- Tagger instance that recognizes no token at all. -/
def tcE : String → List TaggedWord := fun _ => []

/-- Tagger instance for the боевой/боевых pair: both forms share the lemma
боевой, every other token is its own lemma. -/
def tcW : String → List TaggedWord := fun s =>
  if s = "боевой" ∨ s = "боевых" then [⟨s, .noun, .nominative, "боевой"⟩]
  else [⟨s, .noun, .nominative, s⟩]

/-- Distance instance assigning distance 0 to every pair of strings. -/
def dist0 : String → String → ℚ := fun _ _ => 0

def twOg : TaggedWord := ⟨"огонь", .noun, .nominative, "огонь"⟩

def twOgG : TaggedWord := ⟨"огня", .noun, .genitive, "огонь"⟩

def twArt : TaggedWord := ⟨"артиллерии", .noun, .genitive, "артиллерия"⟩

/-- Tagged phrase огонь артиллерии: two nouns, the first nominative. -/
def collOg : List TaggedWord := [twOg, twArt]

/-- Tagged phrase with no noun at all but with a nominative-case word in
second position. -/
def noNounColl : List TaggedWord :=
  [⟨"синего", .adjective, .genitive, "синий"⟩, ⟨"красивый", .adjective, .nominative, "красивый"⟩]

/-- Indexed candidate list for the dedup checks: the query itself, a case
variant, and a single-word candidate. -/
def clistOg : List (Nat × List TaggedWord) :=
  [(0, [twOg, twArt]), (1, [twOgG, twArt]), (2, [twOg])]

/-- Dictionary for the containment-extractor instances. -/
def dictW : List TaggedWord :=
  [⟨"боевой", .noun, .nominative, "боевой"⟩, ⟨"порядок", .noun, .nominative, "порядок"⟩,
   ⟨"боевых", .noun, .genitive, "боевой"⟩, ⟨"порядков", .noun, .genitive, "порядок"⟩]

/-- Short candidate боевой порядок. -/
def lineW : Collocation := ⟨"боевой порядок", 2, 1, "боевой порядок", [], 0⟩

/-- Longer candidate whose first checked substring (зона пуска) fails to tag
while a later substring (боевых порядков) is identical to the short
candidate. -/
def gBad : Collocation := ⟨"зона пуска боевых порядков", 4, 1, "", [], 1⟩

/-- Longer candidate whose substring checks all succeed and one matches. -/
def gGood : Collocation := ⟨"зона боевых порядков", 3, 1, "", [], 2⟩

/-- Candidate for the normal-form resolver instances, spelled with е. -/
def cY : Collocation := ⟨"полет тела", 2, 1, "полет тела", [], 0⟩

/-- Dictionary entries for the tag-assignment instances. -/
def tAlpha : TaggedWord := ⟨"альфа", .noun, .nominative, "альфа"⟩

def tBeta : TaggedWord := ⟨"бета", .noun, .nominative, "бета"⟩

def d10 : List TaggedWord := [tAlpha, tBeta]

/-- Validity of a single word in the sense of the spec's word-identity
contract: non-empty, no internal space, alphabetic-only. -/
def valid_single_word (w : String) : Prop :=
  w ≠ "" ∧ hasChar w ' ' = false ∧ is_correct_word w = true

instance (w : String) : Decidable (valid_single_word w) := by
  unfold valid_single_word; infer_instance

/-- Divergence of the fuel-modelled recursion: no amount of fuel makes it
return. -/
def bic_diverges (tc : String → List TaggedWord) (collocation : List TaggedWord)
    (collocation_list : List (Nat × List TaggedWord)) : Prop :=
  ∀ fuel, binary_identity_check tc collocation fuel collocation_list = Option.none

/-- Appending two fallible list results, the first error winning. -/
def combineResults {γ : Type} (x y : Except MError (List γ)) : Except MError (List γ) :=
  match x with
  | .error e => .error e
  | .ok b1 =>
    match y with
    | .error e => .error e
    | .ok b2 => .ok (b1 ++ b2)

/-! Theorems. -/

/-- Descending Python range(n-1, 1, -1) as a map over an ascending range. -/
theorem range_desc (n : Nat) :
    (List.range' 2 (n - 2)).reverse = (List.range (n - 2)).map (fun k => n - 1 - k) := by
  rw [List.reverse_range']
  apply List.map_congr_left
  intro k hk
  rw [List.mem_range] at hk
  omega

/-- Claim C4: for a phrase of n whitespace-separated words, make_substrs
returns exactly the contiguous sub-phrases of word length 2 through n-1,
longest length first and left-to-right within one length (the enumeration
substrs_per_spec), which excludes the full phrase and single words and is
empty for single-word or empty input. -/
theorem make_substrs_eq_spec (s : String) : make_substrs s = substrs_per_spec s := by
  by_cases h : s = ""
  · subst h; rfl
  · simp only [make_substrs, substrs_per_spec, if_neg h, range_desc, List.flatMap_map]

/-- Claim C10: assign_tags keeps exactly the dictionary entries whose
surface word occurs among the phrase's words, in dictionary order (a
sublist of the dictionary), and the result can differ from the phrase in
both word order and length, as the two concrete instances show. -/
theorem assign_tags_dict_order :
    (∀ (phrase : String) (dictionary : List TaggedWord),
      (assign_tags phrase dictionary).Sublist dictionary ∧
      ∀ t, t ∈ assign_tags phrase dictionary ↔
        t ∈ dictionary ∧ (splitSp phrase).contains t.word = true) ∧
    assign_tags "бета альфа" d10 = [tAlpha, tBeta] ∧
    assign_tags "бета гамма" d10 = [tBeta] := by
  refine ⟨fun phrase dictionary => ⟨List.filter_sublist _, fun t => ?_⟩, rfl, rfl⟩
  simp [assign_tags, List.mem_filter]

/-- Claim C5 (evaluation at the failing input): the fast comparator accepts
two single-element tagged lists and returns ok true, while the validating
variant rejects a single-token input with a value error; the token-count
checks are not the same. -/
theorem is_identical_collocation_q_single_element :
    is_identical_collocation_q tcE [twOg] [twOg] = .ok true ∧
    is_identical_collocation tcE "огонь" "огонь" =
      .error (.valueError "Необходимы словосочетания") :=
  ⟨rfl, rfl⟩

/-- Claim C1 (amended): for a tagged phrase with non-empty surface forms, no
verb+adverb combination, and not exactly one noun (covering both the
two-or-more-noun case and the no-noun case), get_main_word returns the
surface of the first word tagged nominative or accusative, else the surface
of the first noun, else the empty string. -/
theorem get_main_word_multi_noun_head (collocation : List TaggedWord)
    (hw : ∀ w ∈ collocation, w.word ≠ "")
    (hva : ¬ (PartOfSpeech.verb ∈ collocation.map (fun w => w.pos) ∧
              PartOfSpeech.adverb ∈ collocation.map (fun w => w.pos)))
    (hn : (collocation.map (fun w => w.pos)).count PartOfSpeech.noun ≠ 1) :
    get_main_word collocation = .ok
      (match collocation.find? (fun w => decide (w.case = Case.nominative ∨ w.case = Case.accusative)) with
       | some w => w.word
       | Option.none =>
         match collocation.find? (fun w => decide (w.pos = PartOfSpeech.noun)) with
         | some w => w.word
         | Option.none => "") := by
  match collocation, hw, hva, hn with
  | [], _, _, _ => rfl
  | w0 :: rest, hw, hva, hn =>
    have hlen : ¬ ((w0 :: rest).length = 1 ∧
        PartOfSpeech.noun ∈ (w0 :: rest).map (fun w => w.pos)) := by
      rintro ⟨h1, h2⟩
      have hrest : rest = [] := by
        cases rest with
        | nil => rfl
        | cons a as => simp at h1
      subst hrest
      simp at h2
      exact hn (by simp [h2])
    simp only [get_main_word]
    rw [if_neg hva, if_neg hlen, if_neg hn]
    cases hfind : (w0 :: rest).find?
        (fun w => decide (w.case = Case.nominative ∨ w.case = Case.accusative)) with
    | none =>
      simp only [hfind]
      cases (w0 :: rest).find? (fun w => decide (w.pos = PartOfSpeech.noun)) <;> simp
    | some w =>
      have hne : w.word ≠ "" := hw w (List.mem_of_find?_eq_some hfind)
      simp [hfind, hne]

/-- Witness for C1's amended theorem at a two-noun phrase with a nominative
first word. -/
theorem get_main_word_multi_noun_head_witness : get_main_word collOg = .ok "огонь" :=
  get_main_word_multi_noun_head collOg (by decide) (by decide) (by decide)

/-- Counterexample for C1 as stated: a phrase with no noun at all on which
get_main_word returns the first nominative word's surface, not the empty
string. -/
theorem get_main_word_no_noun_cex :
    noNounColl.all (fun w => decide (w.pos ≠ PartOfSpeech.noun)) = true ∧
    get_main_word noNounColl = .ok "красивый" ∧ ("красивый" : String) ≠ "" :=
  ⟨rfl, rfl, by decide⟩

/-- Sequencing a fallible map over an appended list equals sequencing both
parts and appending, with the first error short-circuiting. -/
theorem exceptMap_append {α β : Type} (f : α → Except MError β) (l1 l2 : List α) :
    exceptMap f (l1 ++ l2) = combineResults (exceptMap f l1) (exceptMap f l2) := by
  induction l1 with
  | nil =>
    simp only [List.nil_append, exceptMap, combineResults]
    cases exceptMap f l2 with
    | error e => rfl
    | ok b2 => simp
  | cons a as ih =>
    simp only [List.cons_append, exceptMap, List.append_eq]
    cases f a with
    | error e => rfl
    | ok b =>
      rw [ih]
      simp only [combineResults]
      cases exceptMap f as with
      | error e => rfl
      | ok bs =>
        cases exceptMap f l2 with
        | error e => rfl
        | ok b2 => simp

/-- The linear scan distributes over list append. -/
theorem linear_identity_scan_append (tc : String → List TaggedWord)
    (collocation : List TaggedWord) (l1 l2 : List (Nat × List TaggedWord)) :
    linear_identity_scan tc collocation (l1 ++ l2) =
      combineResults (linear_identity_scan tc collocation l1)
        (linear_identity_scan tc collocation l2) := by
  unfold linear_identity_scan
  exact exceptMap_append _ l1 l2

/-- Core equivalence: with fuel at least the list length, the recursive
halving traversal agrees with the direct linear scan on every non-empty
indexed candidate list. -/
theorem bic_eq_linear_aux (tc : String → List TaggedWord) (collocation : List TaggedWord) :
    ∀ (fuel : Nat) (clist : List (Nat × List TaggedWord)), clist ≠ [] → clist.length ≤ fuel →
      binary_identity_check tc collocation fuel clist =
        some (linear_identity_scan tc collocation clist) := by
  intro fuel
  induction fuel with
  | zero =>
    intro clist hne hlen
    exact absurd (List.eq_nil_of_length_eq_zero (Nat.le_zero.mp hlen)) hne
  | succ n ih =>
    intro clist hne hlen
    match clist with
    | [] => exact absurd rfl hne
    | [tmp] =>
      simp only [binary_identity_check, linear_identity_scan, exceptMap]
      cases h : is_identical_collocation_q tc collocation tmp.2 with
      | error e => simp [h]
      | ok b => simp [h, exceptMap]
    | a :: b :: rest =>
      have hred : binary_identity_check tc collocation (n + 1) (a :: b :: rest) =
          (match binary_identity_check tc collocation n
              ((a :: b :: rest).take ((a :: b :: rest).length / 2)) with
           | Option.none => Option.none
           | some (.error e) => some (.error e)
           | some (.ok first_result) =>
             match binary_identity_check tc collocation n
                 ((a :: b :: rest).drop ((a :: b :: rest).length / 2)) with
             | Option.none => Option.none
             | some (.error e) => some (.error e)
             | some (.ok second_result) => some (.ok (first_result ++ second_result))) := rfl
      rw [hred]
      have hlen2 : (a :: b :: rest).length = rest.length + 2 := by simp
      have hm1 : 1 ≤ (a :: b :: rest).length / 2 := by omega
      have hmlt : (a :: b :: rest).length / 2 < (a :: b :: rest).length := by omega
      have hTlen : ((a :: b :: rest).take ((a :: b :: rest).length / 2)).length ≤ n := by
        rw [List.length_take]
        omega
      have hDlen : ((a :: b :: rest).drop ((a :: b :: rest).length / 2)).length ≤ n := by
        rw [List.length_drop]
        omega
      have hTne : (a :: b :: rest).take ((a :: b :: rest).length / 2) ≠ [] := by
        intro hc
        have := congrArg List.length hc
        rw [List.length_take] at this
        simp at this
        omega
      have hDne : (a :: b :: rest).drop ((a :: b :: rest).length / 2) ≠ [] := by
        intro hc
        have := congrArg List.length hc
        rw [List.length_drop] at this
        simp at this
        omega
      rw [ih _ hTne hTlen, ih _ hDne hDlen]
      conv_rhs => rw [← List.take_append_drop ((a :: b :: rest).length / 2) (a :: b :: rest)]
      rw [linear_identity_scan_append]
      cases hx : linear_identity_scan tc collocation
          ((a :: b :: rest).take ((a :: b :: rest).length / 2)) with
      | error e => rfl
      | ok r1 =>
        cases hy : linear_identity_scan tc collocation
            ((a :: b :: rest).drop ((a :: b :: rest).length / 2)) with
        | error e => rfl
        | ok r2 => rfl

/-- Claim C2: for every query phrase and non-empty indexed candidate list
(with fuel covering the recursion, which the list length does), the
divide-and-conquer binary_identity_check returns exactly the linear scan's
list of (original index, boolean) pairs, in input order, including
agreement on any error raised by the comparator. -/
theorem binary_identity_check_eq_linear_scan (tc : String → List TaggedWord)
    (collocation : List TaggedWord) (collocation_list : List (Nat × List TaggedWord))
    (fuel : Nat) (hne : collocation_list ≠ []) (hfuel : collocation_list.length ≤ fuel) :
    binary_identity_check tc collocation fuel collocation_list =
      some (linear_identity_scan tc collocation collocation_list) :=
  bic_eq_linear_aux tc collocation fuel collocation_list hne hfuel

/-- Witness for C2 on a three-element candidate list. -/
theorem binary_identity_check_eq_linear_scan_witness :
    binary_identity_check tcNom collOg 3 clistOg =
      some (linear_identity_scan tcNom collOg clistOg) :=
  binary_identity_check_eq_linear_scan tcNom collOg clistOg 3 (by decide) (by decide)

/-- Claim C8 (amended): binary_identity_check terminates on every non-empty
indexed candidate list within fuel bounded by the input length. -/
theorem binary_identity_check_terminates (tc : String → List TaggedWord)
    (collocation : List TaggedWord) (collocation_list : List (Nat × List TaggedWord))
    (fuel : Nat) (hne : collocation_list ≠ []) (hfuel : collocation_list.length ≤ fuel) :
    (binary_identity_check tc collocation fuel collocation_list).isSome = true := by
  rw [bic_eq_linear_aux tc collocation fuel collocation_list hne hfuel]
  rfl

/-- Witness for C8's amended theorem on a single-element candidate list. -/
theorem binary_identity_check_terminates_witness :
    (binary_identity_check tcNom collOg 1 [(0, collOg)]).isSome = true :=
  binary_identity_check_terminates tcNom collOg [(0, collOg)] 1 (by decide) (by decide)

/-- Counterexample for C8 as stated: on the empty candidate list the
recursion never returns, whatever the fuel — the source recurses on two
empty halves with no progress. -/
theorem binary_identity_check_empty_diverges : bic_diverges tcNom collOg [] := by
  intro fuel
  induction fuel with
  | zero => rfl
  | succ n ih =>
    have h1 : binary_identity_check tcNom collOg (n + 1) ([] : List (Nat × List TaggedWord)) =
        (match binary_identity_check tcNom collOg n [] with
         | Option.none => Option.none
         | some (.error e) => some (.error e)
         | some (.ok first_result) =>
           match binary_identity_check tcNom collOg n [] with
           | Option.none => Option.none
           | some (.error e) => some (.error e)
           | some (.ok second_result) => some (.ok (first_result ++ second_result))) := rfl
    rw [h1, ih]

/-- Claim C9: the word identity comparator is reflexive and symmetric on
valid single alphabetic words, for any behaviour of the external tagger. -/
theorem is_identical_word_refl_symm (tc : String → List TaggedWord) (a b : String)
    (ha : valid_single_word a) (hb : valid_single_word b) :
    is_identical_word tc a a = .ok true ∧
    is_identical_word tc a b = is_identical_word tc b a := by
  obtain ⟨ha1, ha2, ha3⟩ := ha
  obtain ⟨hb1, hb2, hb3⟩ := hb
  have hsp : ∀ {x y : String}, hasChar x ' ' = false → hasChar y ' ' = false →
      ¬(hasChar x ' ' = true ∨ hasChar y ' ' = true) := by
    intro x y hx hy hc
    rcases hc with hc | hc
    · rw [hx] at hc; exact Bool.noConfusion hc
    · rw [hy] at hc; exact Bool.noConfusion hc
  constructor
  · unfold is_identical_word
    rw [if_neg (fun hc => hc.elim ha1 ha1), if_neg (hsp ha2 ha2),
        if_neg (fun hc => hc ⟨ha3, ha3⟩)]
    dsimp only
    rw [if_pos rfl]
  · unfold is_identical_word
    rw [if_neg (fun hc : a = "" ∨ b = "" => hc.elim ha1 hb1), if_neg (hsp ha2 hb2),
        if_neg (fun hc : ¬(is_correct_word a = true ∧ is_correct_word b = true) => hc ⟨ha3, hb3⟩),
        if_neg (fun hc : b = "" ∨ a = "" => hc.elim hb1 ha1), if_neg (hsp hb2 ha2),
        if_neg (fun hc : ¬(is_correct_word b = true ∧ is_correct_word a = true) => hc ⟨hb3, ha3⟩)]
    dsimp only
    by_cases heq : sLower a = sLower b
    · rw [if_pos heq, if_pos heq.symm]
    · rw [if_neg heq, if_neg (fun hc => heq hc.symm)]
      cases h1 : (tc (sLower a)).head? with
      | none =>
        cases h2 : (tc (sLower b)).head? with
        | none => rfl
        | some t2 => rfl
      | some t1 =>
        cases h2 : (tc (sLower b)).head? with
        | none => rfl
        | some t2 => exact congrArg Except.ok (decide_eq_decide.mpr eq_comm)

/-- Witness for C9 at огня/огонь under the identity-lemma tagger. -/
theorem is_identical_word_refl_symm_witness :
    is_identical_word tcNom "огня" "огня" = .ok true ∧
    is_identical_word tcNom "огня" "огонь" = is_identical_word tcNom "огонь" "огня" :=
  is_identical_word_refl_symm tcNom "огня" "огонь" (by decide) (by decide)

/-- Claim C6 (amended): an error while checking the substrings of one longer
candidate makes get_longer_terms treat that entire candidate as not a match
(its remaining substrings are not checked), and the batch continues exactly
as if the failing candidate were absent. -/
theorem get_longer_terms_skips_failing_gram (tc : String → List TaggedWord)
    (line : Collocation) (dictionary : List TaggedWord)
    (pre post : List Collocation) (g : Collocation) (e : MError)
    (h : gram_check tc (assign_tags_c line dictionary) line.wordcount dictionary g = .error e) :
    get_longer_terms tc line (pre ++ g :: post) dictionary =
      get_longer_terms tc line (pre ++ post) dictionary := by
  unfold get_longer_terms
  simp [List.filter_append, List.filter_cons, h]

/-- Witness for C6's amended theorem: the candidate with the failing
substring drops out, the following candidate is processed unchanged. -/
theorem get_longer_terms_skips_failing_gram_witness :
    get_longer_terms tcW lineW [gBad, gGood] dictW = get_longer_terms tcW lineW [gGood] dictW :=
  get_longer_terms_skips_failing_gram tcW lineW dictW [] [gGood] gBad
    (.valueError "Необходимы словосочетания") rfl

/-- Counterexample for C6 as stated: gBad has the substring
"боевых порядков", which is checked against the short candidate only after
the failing substring "зона пуска"; the source skips the whole candidate,
so the batch result is empty even though a later substring is identical. -/
theorem get_longer_terms_substring_cex :
    get_longer_terms tcW lineW [gBad] dictW = [] ∧
    "боевых порядков" ∈ (make_substrs gBad.collocation).filter
      (fun substr => (splitSp substr).length == lineW.wordcount) ∧
    is_identical_collocation_q tcW (assign_tags_c lineW dictW)
      (assign_tags "боевых порядков" dictW) = .ok true :=
  ⟨rfl, by decide, rfl⟩

/-- Claim C7 (amended): in_collocation_list_var returns the not-found result
for an empty candidate list before any validation, and for a non-empty list
it raises a value error whenever any token of the query or of any candidate
is non-alphabetic. -/
theorem in_collocation_list_var_empty_and_invalid (tc : String → List TaggedWord)
    (collocation : String) (collocation_list : List String) :
    in_collocation_list_var tc collocation [] = .ok (false, Option.none) ∧
    (collocation_list ≠ [] →
      ((splitWS collocation).all is_correct_word = false ∨
        collocation_list.all (fun coll => (splitWS coll).all is_correct_word) = false) →
      in_collocation_list_var tc collocation collocation_list =
        .error (.valueError "Слова в словосочетаниях должны состоять из букв")) := by
  constructor
  · rfl
  · intro hne hbad
    unfold in_collocation_list_var
    rw [if_neg (by simp [List.length_eq_zero, hne]), if_pos hbad]

/-- Witness for C7's amended theorem: non-alphabetic query token against a
non-empty candidate list raises the value error. -/
theorem in_collocation_list_var_invalid_witness :
    in_collocation_list_var tcNom "и123 дивизионов" ["огня артиллерии"] =
      .error (.valueError "Слова в словосочетаниях должны состоять из букв") :=
  (in_collocation_list_var_empty_and_invalid tcNom "и123 дивизионов" ["огня артиллерии"]).2
    (by decide) (by decide)

/-- Counterexample for C7 as stated: with a non-alphabetic query token and
an empty candidate list the function returns not-found instead of raising,
because the empty-list return precedes validation. -/
theorem in_collocation_list_var_empty_cex :
    in_collocation_list_var tcNom "и123 дивизионов" [] = .ok (false, Option.none) ∧
    is_correct_word "и123" = false ∧ "и123" ∈ splitWS "и123 дивизионов" :=
  ⟨rfl, rfl, by decide⟩

/-- Applying the ё-to-е rewriting twice is the same as applying it once. -/
theorem yoRepl_idem (s : String) : yoRepl (yoRepl s) = yoRepl s := by
  have h : ∀ l : List Char,
      (l.map (fun c => if c = 'ё' then 'е' else c)).map (fun c => if c = 'ё' then 'е' else c) =
        l.map (fun c => if c = 'ё' then 'е' else c) := by
    intro l
    rw [List.map_map]
    apply List.map_congr_left
    intro c _
    by_cases hc : c = 'ё' <;> simp [hc, Function.comp]
  exact congrArg String.mk (h s.data)

/-- Rewriting a candidate record twice is the same as rewriting it once. -/
theorem collRepl_idem (c : Collocation) : collRepl (collRepl c) = collRepl c := by
  simp [collRepl, yoRepl_idem]

/-- Claim C3 (amended): when the pseudo-normal form contains ё (the trigger
the source actually tests), resolution is invariant under rewriting ё to е
in the pseudo-normal form, the head word and every candidate text: the
selected index is the same for either spelling of those inputs. -/
theorem get_collocation_normal_form_yo_invariant (dist : String → String → ℚ)
    (pnormal_form main_word : String) (collocations : List Collocation)
    (h : hasChar (sLower pnormal_form) 'ё' = true) :
    get_collocation_normal_form dist pnormal_form collocations main_word =
      get_collocation_normal_form dist (yoRepl pnormal_form) (collocations.map collRepl)
        (yoRepl main_word) := by
  unfold get_collocation_normal_form
  rw [if_pos h]
  by_cases h2 : hasChar (sLower (yoRepl pnormal_form)) 'ё' = true
  · rw [if_pos h2, yoRepl_idem, yoRepl_idem, List.map_map,
        show collRepl ∘ collRepl = collRepl from funext collRepl_idem]
  · rw [if_neg h2]

/-- Witness for C3's amended theorem on a ё-spelled pseudo-normal form. -/
theorem get_collocation_normal_form_yo_invariant_witness :
    get_collocation_normal_form dist0 "полёт тела" [cY] "полёт" =
      get_collocation_normal_form dist0 (yoRepl "полёт тела") ([cY].map collRepl)
        (yoRepl "полёт") :=
  get_collocation_normal_form_yo_invariant dist0 "полёт тела" "полёт" [cY] (by decide)

/-- Resolution over a single candidate reduces to the head-word containment
test: the single distance is its own minimum, so the threshold condition
holds for any distance function. -/
theorem gcnf_core_singleton (dist : String → String → ℚ) (pnf mw : String) (c : Collocation) :
    gcnf_core dist pnf [c] mw =
      if substrOf mw c.collocation = true then .ok 0 else .ok (-1) := by
  unfold gcnf_core
  simp only [List.map, List.min?, List.foldl, List.zip, List.zipWith, List.enum,
    List.enumFrom, List.filterMap]
  have hd : dist pnf c.collocation - dist pnf c.collocation ≤ DIST_THRESHOLD := by
    rw [sub_self]
    norm_num [DIST_THRESHOLD]
  by_cases hs : substrOf mw c.collocation = true
  · rw [if_pos hs]
    simp only [hs, hd, if_true, and_true, eq_self_iff_true, true_and]
    rfl
  · rw [if_neg hs]
    have hs2 : substrOf mw c.collocation = false := by
      cases hEq : substrOf mw c.collocation
      · rfl
      · exact absurd hEq hs
    simp only [hs2, Bool.false_eq_true, and_false, if_false]
    rfl

/-- Counterexample for C3 as stated: the pseudo-normal form has no ё, the
head word does; no normalization is performed, and the resolver selects a
different index for the ё-spelled head word (sentinel -1) than for the
е-spelled one (index 0). -/
theorem get_collocation_normal_form_headword_cex :
    get_collocation_normal_form dist0 "полет тела" [cY] "полёт" = .ok (-1) ∧
    get_collocation_normal_form dist0 "полет тела" [cY] "полет" = .ok 0 ∧
    hasChar "полёт" 'ё' = true ∧ hasChar "полет тела" 'ё' = false := by
  refine ⟨?_, ?_, rfl, rfl⟩
  · unfold get_collocation_normal_form
    rw [if_neg (by decide), gcnf_core_singleton, if_neg (by decide)]
  · unfold get_collocation_normal_form
    rw [if_neg (by decide), gcnf_core_singleton, if_pos (by decide)]

end Morph
